import Mathlib

/-!
Verification of the marimo-lsp language server core against its
natural-language specification.

The development shallowly embeds the Python sources under
`src/marimo_lsp/` (diagnostics.py, session_manager.py, server.py,
session_consumer.py, kernel_manager.py, zeromq/kernel_server.py,
utils.py).  Python dicts and `OrderedDict`s are modelled as association
lists in insertion order; dict assignment replaces in place, insertion of
a new key appends at the tail, exactly as CPython guarantees.  Machine
strings are Lean `String`s, integers are `Nat`.  Fall-through on
exceptions (`SyntaxError` from `compile_cell`) is modelled by an
`Option`-returning compile parameter.
-/

namespace MarimoLsp

/-! ## Python dict model (insertion-ordered association lists) -/

/-- Lookup of a key, returning the first (and, for a well-formed dict,
only) binding, as Python `d.get(k)`. -/
def dictGet {α β : Type} [DecidableEq α] : List (α × β) → α → Option β
  | [], _ => none
  | (k', v') :: rest, k => if k' = k then some v' else dictGet rest k

/-- Assignment `d[k] = v`: replaces the value in place when the key is
present (CPython keeps the key's position), appends otherwise. -/
def dictSet {α β : Type} [DecidableEq α] : List (α × β) → α → β → List (α × β)
  | [], k, v => [(k, v)]
  | (k', v') :: rest, k, v =>
      if k' = k then (k, v) :: rest else (k', v') :: dictSet rest k v

/-- Removal `d.pop(k, None)`: drops the first binding of the key. -/
def dictPop {α β : Type} [DecidableEq α] : List (α × β) → α → List (α × β)
  | [], _ => []
  | (k', v') :: rest, k => if k' = k then rest else (k', v') :: dictPop rest k

/-- Membership test `k in d`. -/
def dictContains {α β : Type} [DecidableEq α] (d : List (α × β)) (k : α) : Bool :=
  (dictGet d k).isSome

/-! ## LRUCache (diagnostics.py, lines 55-78)

An `OrderedDict` is a list of bindings whose head is the least recently
used entry and whose tail end is the most recently used one: `get` and
`put` move a binding to the tail, `popitem(last=False)` drops the head. -/

structure LRUCache (α β : Type) where
  entries : List (α × β)
  capacity : Nat
deriving DecidableEq

namespace LRUCache

/-- Retrieve an item and mark it as most recently used.  Returns the
value (or `none` on a miss) together with the reordered cache, since the
Python method mutates the `OrderedDict` on a hit. -/
def get {α β : Type} [DecidableEq α] (c : LRUCache α β) (k : α) :
    Option β × LRUCache α β :=
  match dictGet c.entries k with
  | none => (none, c)
  | some v => (some v, { c with entries := dictPop c.entries k ++ [(k, v)] })

/-- Add an item, evicting the least recently used entry when a new key
arrives at full capacity. -/
def put {α β : Type} [DecidableEq α] (c : LRUCache α β) (k : α) (v : β) :
    LRUCache α β :=
  if dictContains c.entries k then
    { c with entries := dictPop c.entries k ++ [(k, v)] }
  else if c.entries.length ≥ c.capacity then
    { c with entries := c.entries.drop 1 ++ [(k, v)] }
  else
    { c with entries := c.entries ++ [(k, v)] }

end LRUCache

/-! ## AST and compiled cells

`CellId_t` is a `NewType` over `str`.  The compiled module is modelled by
the node list that `ast.walk` yields; only `ast.Name` nodes carry the
fields that `find_variable_definitions` reads. -/

abbrev CellId := String

/-- Node of the walked AST of a compiled cell.  `nameNode` models an
`ast.Name` (with `isStore` true exactly when its `ctx` is `ast.Store`);
every other node kind is ignored by the diagnostics code. -/
inductive ASTNode where
  | nameNode (id : String) (isStore : Bool) (lineno colOffset : Nat)
      (endColOffset : Option Nat)
  | other
deriving DecidableEq

/-- Product of compiling a cell (`CellImpl`): the names it declares and
the walked node list of its parsed module. -/
structure CompiledCell where
  defs : List String
  mod : List ASTNode
deriving DecidableEq

/-! ## DirectedGraph

Model of the external `marimo._runtime.dataflow.DirectedGraph` as the
spec's DependencyGraph data model describes it: registered cells, a
`definitions` map from name to declaring cells, and the cached cycle set
(each cycle a tuple of edges).  `register_cell` records the cell and its
declared names; `delete_cell` removes the cell's registration and all of
its `definitions` entries.  Edge/cycle recomputation happens inside the
external library and no claim under verification depends on it, so
`register_cell` leaves the cached cycles unchanged and `delete_cell`
drops cycles that mention the cell. -/

structure DirectedGraph where
  cells : List CellId
  definitions : List (String × List CellId)
  cycles : List (List (CellId × CellId))
deriving DecidableEq

namespace DirectedGraph

/-- Add one declaring cell to a name's definition set. -/
def addDef (defs : List (String × List CellId)) (n : String) (c : CellId) :
    List (String × List CellId) :=
  match dictGet defs n with
  | none => defs ++ [(n, [c])]
  | some l => dictSet defs n (l ++ [c])

/-- Register a compiled cell: record it and each of its declared names. -/
def registerCell (g : DirectedGraph) (c : CellId) (compiled : CompiledCell) :
    DirectedGraph :=
  { g with
    cells := g.cells ++ [c]
    definitions := compiled.defs.foldl (fun d n => addDef d n c) g.definitions }

/-- Delete a cell: drop its registration, purge it from every
`definitions` entry (dropping names left with no declaring cell), and
drop cached cycles that mention it. -/
def deleteCell (g : DirectedGraph) (c : CellId) : DirectedGraph :=
  { cells := g.cells.filter (· ≠ c)
    definitions :=
      (g.definitions.map (fun p => (p.1, p.2.filter (· ≠ c)))).filter
        (fun p => ¬p.2.isEmpty)
    cycles :=
      g.cycles.filter (fun cy => ¬cy.any (fun e => e.1 = c ∨ e.2 = c)) }

/-- Names declared by more than one cell (`get_multiply_defined`). -/
def multiplyDefined (g : DirectedGraph) : List String :=
  (g.definitions.filter (fun p => p.2.length > 1)).map (·.1)

end DirectedGraph

/-! ## LSP notebook model

Only the parts the diagnostics code reads: a notebook cell carries its
text-document URI (`cell.document`) and the `stableId` entry of its
metadata (`none` models both a missing metadata mapping and a metadata
mapping without a `stableId` key). -/

structure NotebookCell where
  document : String
  stableId : Option String
deriving DecidableEq

structure NotebookDocument where
  uri : String
  cells : List NotebookCell
deriving DecidableEq

/-- Stable cell id from cell metadata (utils.py `get_stable_id`). -/
def getStableId (cell : NotebookCell) : Option CellId :=
  cell.stableId

/-- Python truthiness of an optional `CellId` (`if not cell_id`): falsy
when absent or the empty string. -/
def cellIdFalsy : Option CellId → Bool
  | none => true
  | some s => s = ""

/-- Friendly display name for a cell (diagnostics.py, lines 41-46):
`cell-<index>` (1-based) of the first notebook cell whose document URI
equals the cell id, falling back to the id itself. -/
def getCellDisplayName (cellId : CellId) (notebook : NotebookDocument) : String :=
  go notebook.cells 1
where
  go : List NotebookCell → Nat → String
    | [], _ => cellId
    | cell :: rest, idx =>
        if cell.document = cellId then s!"cell-{idx}" else go rest (idx + 1)

/-- URI of the first notebook cell whose document equals the cell id, as
the lookup loops in `create_cycle_diagnostics` and
`create_multiple_definition_diagnostics` compute it. -/
def findCellUri (notebook : NotebookDocument) (cellId : CellId) : Option String :=
  (notebook.cells.find? (fun cell => cell.document = cellId)).map (·.document)

/-! ## LSP diagnostics -/

/-- Zero-based line/character position. -/
structure Position where
  line : Nat
  character : Nat
deriving DecidableEq

/-- Character range; `stop` models the LSP range's `end` field. -/
structure Range where
  start : Position
  stop : Position
deriving DecidableEq

/-- Structured payload attached to a multiple-definition diagnostic;
`varName` models the `"variable"` key. -/
structure DiagnosticData where
  varName : String
  cellId : String
  allCells : List String
deriving DecidableEq

/-- Severity constants of `lsp.DiagnosticSeverity` (Error = 1). -/
def severityError : Nat := 1

structure Diagnostic where
  range : Range
  message : String
  severity : Nat
  source : String
  code : String
  data : Option DiagnosticData
deriving DecidableEq

/-- Per-URI diagnostic map built with
`diagnostics_by_uri.setdefault(uri, []).append(d)`. -/
abbrev DiagMap := List (String × List Diagnostic)

/-- Append a diagnostic to a URI's list, creating the entry (at the
tail, as dict insertion does) when the URI is new. -/
def setdefaultAppend (m : DiagMap) (uri : String) (d : Diagnostic) : DiagMap :=
  match dictGet m uri with
  | none => m ++ [(uri, [d])]
  | some l => dictSet m uri (l ++ [d])

/-- Diagnostics stored under a URI (empty when the URI is absent). -/
def diagsAt (m : DiagMap) (uri : String) : List Diagnostic :=
  (dictGet m uri).getD []

/-! ## Variable positions (diagnostics.py, lines 31-38 and 284-299) -/

structure VariablePosition where
  name : String
  line : Nat
  colStart : Nat
  colEnd : Nat
deriving DecidableEq

/-- Python's `x or y` on an optional integer: the fallback is taken when
the value is `None` or the falsy integer `0`. -/
def pyOrNat : Option Nat → Nat → Nat
  | none, d => d
  | some 0, d => d
  | some (k + 1), _ => k + 1

/-- Does a walked node match `isinstance(node, ast.Name) and
isinstance(node.ctx, ast.Store) and node.id == var_name`? -/
def isStoreNameFor (varName : String) : ASTNode → Bool
  | .nameNode id isStore _ _ _ => isStore && id = varName
  | .other => false

/-- Position extracted from one walked node when it is a store of the
variable (the comprehension body of `find_variable_definitions`). -/
def varPosOf (varName : String) : ASTNode → Option VariablePosition
  | .nameNode id isStore lineno colOffset endColOffset =>
      if isStore && id = varName then
        some { name := varName
               line := lineno
               colStart := colOffset
               colEnd := pyOrNat endColOffset (colOffset + varName.length) }
      else none
  | .other => none

/-- Positions where a variable is assigned in the walked AST
(`find_variable_definitions`). -/
def findVariableDefinitions (compiled : CompiledCell) (varName : String) :
    List VariablePosition :=
  compiled.mod.filterMap (varPosOf varName)

/-- Line number of a walked node (1-based, as CPython's `lineno`). -/
def nodeLineno : ASTNode → Nat
  | .nameNode _ _ lineno _ _ => lineno
  | .other => 0

/-- Column offset of a walked node (0-based). -/
def nodeColOffset : ASTNode → Nat
  | .nameNode _ _ _ colOffset _ => colOffset
  | .other => 0

/-- End column offset of a walked node. -/
def nodeEndColOffset : ASTNode → Option Nat
  | .nameNode _ _ _ _ endColOffset => endColOffset
  | .other => none

/-- A node carries a truthy (present and non-zero) `end_col_offset`, as
every real CPython `ast.Name` node does. -/
def goodEnd : ASTNode → Bool
  | .nameNode _ _ _ _ (some (Nat.succ _)) => true
  | _ => false

/-! ## NotebookGraphManager (diagnostics.py, lines 81-254)

Compilation (`marimo._ast.compiler.compile_cell`) is external Python
parsing, so the manager's operations take a `compile` function as a
parameter; `none` models a raised `SyntaxError`. -/

structure NotebookGraphManager where
  cellSources : List (CellId × String)
  compiledCells : List (CellId × CompiledCell)
  graph : DirectedGraph
  stale : Bool
  uriToCellIdCache : LRUCache String CellId
  cachedDiagnostics : Option DiagMap
deriving DecidableEq

namespace NotebookGraphManager

/-- Fresh manager (`__init__`): empty state, clean, URI cache of
capacity 1000. -/
def init : NotebookGraphManager :=
  { cellSources := []
    compiledCells := []
    graph := { cells := [], definitions := [], cycles := [] }
    stale := false
    uriToCellIdCache := { entries := [], capacity := 1000 }
    cachedDiagnostics := none }

/-- Update a single cell, recompiling only if the source changed
(`update_cell`, lines 115-141). -/
def updateCell (compile : CellId → String → Option CompiledCell)
    (st : NotebookGraphManager) (cellId : CellId) (source : String) :
    NotebookGraphManager :=
  if dictGet st.cellSources cellId = some source then
    st
  else
    let sources := dictSet st.cellSources cellId source
    let g :=
      if cellId ∈ st.graph.cells then st.graph.deleteCell cellId else st.graph
    match compile cellId source with
    | some compiled =>
        { st with
          cellSources := sources
          graph := g.registerCell cellId compiled
          compiledCells := dictSet st.compiledCells cellId compiled
          stale := true
          cachedDiagnostics := none }
    | none =>
        { st with
          cellSources := sources
          graph := g
          compiledCells := dictPop st.compiledCells cellId
          stale := true
          cachedDiagnostics := none }

/-- Remove a cell from tracking (`remove_cell`, lines 143-150). -/
def removeCell (st : NotebookGraphManager) (cellId : CellId) :
    NotebookGraphManager :=
  { st with
    cellSources := dictPop st.cellSources cellId
    compiledCells := dictPop st.compiledCells cellId
    graph :=
      if cellId ∈ st.graph.cells then st.graph.deleteCell cellId else st.graph
    stale := true
    cachedDiagnostics := none }

/-- Compiled cell for a given id (`get_compiled_cell`). -/
def getCompiledCell (st : NotebookGraphManager) (cellId : CellId) :
    Option CompiledCell :=
  dictGet st.compiledCells cellId

def isStale (st : NotebookGraphManager) : Bool := st.stale

/-- Mark the graph as clean after publishing (`mark_clean`). -/
def markClean (st : NotebookGraphManager) : NotebookGraphManager :=
  { st with stale := false }

end NotebookGraphManager

/-! ## Notebook document change events (lsprotocol shapes)

Only the fields the sync code reads.  `arrayCells` models
`structure.array.cells` (an optional list); Python truthiness makes
`None` and the empty list behave alike, which the embedding mirrors by
matching on the option. -/

/-- A `did_open` entry (`lsp.TextDocumentItem`): cell URI plus opened
text. -/
structure TextDocumentItem where
  uri : String
  text : String
deriving DecidableEq

/-- A `did_close` entry (`lsp.TextDocumentIdentifier`). -/
structure TextDocumentIdentifier where
  uri : String
deriving DecidableEq

/-- The structural part of a cell change
(`lsp.NotebookDocumentCellChangeStructure`). -/
structure CellChangeStructure where
  arrayCells : Option (List NotebookCell)
  didOpen : Option (List TextDocumentItem)
  didClose : Option (List TextDocumentIdentifier)
deriving DecidableEq

/-- A text-content entry (`lsp.NotebookDocumentCellContentChanges`):
the sync code only reads its `document.uri`. -/
structure TextContentChange where
  document : TextDocumentIdentifier
deriving DecidableEq

/-- Cell changes of one event (`lsp.NotebookDocumentCellChanges`);
`structureChange` models the `structure` field. -/
structure CellChanges where
  structureChange : Option CellChangeStructure
  data : Option (List NotebookCell)
  textContent : Option (List TextContentChange)
deriving DecidableEq

/-- One notebook-document change event
(`lsp.NotebookDocumentChangeEvent`). -/
structure ChangeEvent where
  cells : Option CellChanges
deriving DecidableEq

/-- The workspace text-document store: URI to current source
(`workspace.text_documents`, reading `document.source`). -/
abbrev Workspace := List (String × String)

namespace NotebookGraphManager

/-- Remove a cell given its document identifier
(`_remove_cell_document`, lines 177-184).  The LRU `get` reorders the
cache even when the lookup result is then discarded, so the returned
state carries the touched cache. -/
def removeCellDocument (st : NotebookGraphManager)
    (cell : TextDocumentIdentifier) : NotebookGraphManager :=
  let (cellId, cache) := st.uriToCellIdCache.get cell.uri
  let st' := { st with uriToCellIdCache := cache }
  if cellIdFalsy cellId then st'
  else
    match cellId with
    | some cid => st'.removeCell cid
    | none => st'

/-- Update a cell given its document identifier and new source
(`_update_cell_document`, lines 186-198). -/
def updateCellDocument (compile : CellId → String → Option CompiledCell)
    (st : NotebookGraphManager) (uri : String) (source : String) :
    NotebookGraphManager :=
  let (cellId, cache) := st.uriToCellIdCache.get uri
  let st' := { st with uriToCellIdCache := cache }
  if cellIdFalsy cellId then st'
  else
    match cellId with
    | some cid => updateCell compile st' cid source
    | none => st'

/-- Record one cell's URI-to-stable-id mapping when the cell carries a
truthy stable id (`_persist_mapping` loop body). -/
def persistCell (st : NotebookGraphManager) (cell : NotebookCell) :
    NotebookGraphManager :=
  let cellId := getStableId cell
  if cellIdFalsy cellId then st
  else
    match cellId with
    | some cid =>
        { st with uriToCellIdCache := st.uriToCellIdCache.put cell.document cid }
    | none => st

/-- Persist URI-to-id mappings from the `data` array and the structure
splice's cell array (`_persist_mapping`, lines 228-254). -/
def persistMapping (st : NotebookGraphManager) (change : ChangeEvent) :
    NotebookGraphManager :=
  match change.cells with
  | none => st
  | some cc =>
      let st1 :=
        match cc.data with
        | none => st
        | some cells => cells.foldl persistCell st
      match cc.structureChange with
      | none => st1
      | some sc =>
          match sc.arrayCells with
          | none => st1
          | some cells => cells.foldl persistCell st1

/-- Sync the manager with one notebook-document change event
(`sync_with_notebook_document_change_event`, lines 200-226): persist
mappings, then process `did_close`, then `did_open`, then text-content
updates against the workspace's current text. -/
def sync (compile : CellId → String → Option CompiledCell) (ws : Workspace)
    (st : NotebookGraphManager) (change : ChangeEvent) :
    NotebookGraphManager :=
  match change.cells with
  | none => st
  | some cc =>
      let st1 := persistMapping st change
      let st2 :=
        match cc.structureChange with
        | none => st1
        | some sc =>
            match sc.didClose with
            | none => st1
            | some closed => closed.foldl removeCellDocument st1
      let st3 :=
        match cc.structureChange with
        | none => st2
        | some sc =>
            match sc.didOpen with
            | none => st2
            | some opened =>
                opened.foldl
                  (fun acc item => updateCellDocument compile acc item.uri item.text)
                  st2
      match cc.textContent with
      | none => st3
      | some texts =>
          texts.foldl
            (fun acc tc =>
              match dictGet ws tc.document.uri with
              | none => acc
              | some source => updateCellDocument compile acc tc.document.uri source)
            st3

end NotebookGraphManager

/-! ## Spec-side phase composition for one change event

Definition following the spec's words (section 4.C.4): "Apply in order:
1. Persist URI→CellId mappings for every cell referenced by `data` and
by the structure splice.  2. Process `did_close` (remove).  3. Process
`did_open` (update with the opened text).  4. Process `text_content`
entries (look up current text of the document and update)."  Stated over
the extracted sub-arrays so that the ordering claim can be checked as a
refinement of `sync`. -/

namespace SpecSync

/-- Phase 1: persist mappings for the cells of the `data` array followed
by the cells of the structure splice. -/
def phaseMappings (st : NotebookGraphManager) (cc : CellChanges) :
    NotebookGraphManager :=
  ((cc.data.getD []) ++
      ((cc.structureChange.bind (·.arrayCells)).getD [])).foldl
    NotebookGraphManager.persistCell st

/-- Phase 2: remove the cells listed in `did_close`. -/
def phaseCloses (st : NotebookGraphManager) (cc : CellChanges) :
    NotebookGraphManager :=
  ((cc.structureChange.bind (·.didClose)).getD []).foldl
    NotebookGraphManager.removeCellDocument st

/-- Phase 3: update the cells listed in `did_open` with their opened
text. -/
def phaseOpens (compile : CellId → String → Option CompiledCell)
    (st : NotebookGraphManager) (cc : CellChanges) : NotebookGraphManager :=
  ((cc.structureChange.bind (·.didOpen)).getD []).foldl
    (fun acc item =>
      NotebookGraphManager.updateCellDocument compile acc item.uri item.text)
    st

/-- Phase 4: apply `text_content` updates using the workspace's current
document text. -/
def phaseTexts (compile : CellId → String → Option CompiledCell)
    (ws : Workspace) (st : NotebookGraphManager) (cc : CellChanges) :
    NotebookGraphManager :=
  ((cc.textContent).getD []).foldl
    (fun acc tc =>
      match dictGet ws tc.document.uri with
      | none => acc
      | some source =>
          NotebookGraphManager.updateCellDocument compile acc tc.document.uri
            source)
    st

/-- The four phases in the spec's fixed order; an event without a
`cells` field changes nothing. -/
def specSync (compile : CellId → String → Option CompiledCell)
    (ws : Workspace) (st : NotebookGraphManager) (change : ChangeEvent) :
    NotebookGraphManager :=
  match change.cells with
  | none => st
  | some cc =>
      phaseTexts compile ws
        (phaseOpens compile (phaseCloses (phaseMappings st cc) cc) cc) cc

end SpecSync

/-! ## Cycle diagnostics (diagnostics.py, lines 302-375)

Python iterates `cells_in_cycles` (a set); sets have no specified
iteration order, so the embedding fixes first-occurrence order over the
cycles' edges, which no property under verification depends on. -/

/-- Cells appearing in any cached cycle, in first-occurrence order. -/
def cellsInCycles (g : DirectedGraph) : List CellId :=
  (g.cycles.flatMap (fun cy => cy.flatMap (fun e => [e.1, e.2]))).dedup

/-- Cycles an individual cell participates in (`cell_id in edge` tests
tuple membership). -/
def relevantCycles (g : DirectedGraph) (cellId : CellId) :
    List (List (CellId × CellId)) :=
  g.cycles.filter (fun cy => cy.any (fun e => cellId = e.1 ∨ cellId = e.2))

/-- Display form of a cycle (`format_cycle_description`): the first
edge's source followed by every edge's destination, joined by arrows. -/
def formatCycleDescription (cycle : List (CellId × CellId))
    (notebook : NotebookDocument) : String :=
  match cycle with
  | [] => ""
  | e0 :: _ =>
      let cellsInCycle := e0.1 :: cycle.map (·.2)
      String.intercalate " → "
        (cellsInCycle.map (fun cid => getCellDisplayName cid notebook))

/-- The cycle diagnostic emitted for one cell: anchored at
(0,0)-(0,0), error severity, source "marimo", code "cycle-error". -/
def mkCycleDiagnostic (cycleDesc : String) : Diagnostic :=
  { range :=
      { start := { line := 0, character := 0 }
        stop := { line := 0, character := 0 } }
    message := s!"Cell is part of a dependency cycle: {cycleDesc}"
    severity := severityError
    source := "marimo"
    code := "cycle-error"
    data := none }

/-- Loop body of `create_cycle_diagnostics`: skip cells with no relevant
cycle or no matching notebook cell URI, otherwise append one diagnostic
under the found URI. -/
def cycleDiagStep (notebook : NotebookDocument) (g : DirectedGraph)
    (acc : DiagMap) (cellId : CellId) : DiagMap :=
  match relevantCycles g cellId with
  | [] => acc
  | cy :: _ =>
      match findCellUri notebook cellId with
      | none => acc
      | some uri =>
          setdefaultAppend acc uri
            (mkCycleDiagnostic (formatCycleDescription cy notebook))

/-- Diagnostics for all cells involved in cycles
(`create_cycle_diagnostics`). -/
def createCycleDiagnostics (notebook : NotebookDocument) (g : DirectedGraph) :
    DiagMap :=
  if g.cycles.isEmpty then []
  else (cellsInCycles g).foldl (cycleDiagStep notebook g) []

/-! ## Multiple-definition diagnostics (diagnostics.py, lines 378-448) -/

/-- The diagnostic for one store position of a multiply-defined
variable: the variable token's span on its zero-based line, message
naming the other defining cells, structured data recording variable,
cell and all defining cells. -/
def mkMultiDefDiagnostic (varName : String) (cellId : CellId)
    (definingCells : List CellId) (otherCellsStr : String)
    (pos : VariablePosition) : Diagnostic :=
  { range :=
      { start := { line := pos.line - 1, character := pos.colStart }
        stop := { line := pos.line - 1, character := pos.colEnd } }
    message :=
      s!"Variable '{varName}' is defined in multiple cells (also in: {otherCellsStr})"
    severity := severityError
    source := "marimo"
    code := "multiple-definition"
    data := some { varName := varName, cellId := cellId, allCells := definingCells } }

/-- Emission for one (variable, defining cell) pair: skipped when the
cell has no compiled artefact or no matching notebook cell URI,
otherwise one `(uri, diagnostic)` entry per store position. -/
def multiDefEntriesFor (notebook : NotebookDocument)
    (gm : NotebookGraphManager) (varName : String)
    (definingCells : List CellId) (cellId : CellId) :
    List (String × Diagnostic) :=
  match gm.getCompiledCell cellId with
  | none => []
  | some compiled =>
      let positions := findVariableDefinitions compiled varName
      match findCellUri notebook cellId with
      | none => []
      | some uri =>
          let otherCells := definingCells.filter (· ≠ cellId)
          let otherCellsStr :=
            String.intercalate ", "
              (otherCells.map (fun c => getCellDisplayName c notebook))
          positions.map
            (fun pos =>
              (uri, mkMultiDefDiagnostic varName cellId definingCells
                otherCellsStr pos))

/-- Cells declaring a name (`graph.definitions.get(var_name, set())`). -/
def definingCellsOf (gm : NotebookGraphManager) (varName : String) :
    List CellId :=
  (dictGet gm.graph.definitions varName).getD []

/-- All `(uri, diagnostic)` emissions of
`create_multiple_definition_diagnostics` in loop order: for every
multiply-defined name, for every cell declaring it. -/
def multiDefEntries (notebook : NotebookDocument)
    (gm : NotebookGraphManager) : List (String × Diagnostic) :=
  gm.graph.multiplyDefined.flatMap fun varName =>
    (definingCellsOf gm varName).flatMap fun cellId =>
      multiDefEntriesFor notebook gm varName (definingCellsOf gm varName)
        cellId

/-- Diagnostics for multiply-defined variables
(`create_multiple_definition_diagnostics`), grouping the emissions by
cell URI. -/
def createMultipleDefinitionDiagnostics (notebook : NotebookDocument)
    (gm : NotebookGraphManager) : DiagMap :=
  (multiDefEntries notebook gm).foldl
    (fun m p => setdefaultAppend m p.1 p.2) []

/-- Message of a multiple-definition diagnostic as the claim describes
it: it lists the other defining cells by display name. -/
def specMultiDefMessage (notebook : NotebookDocument) (varName : String)
    (cellId : CellId) (definingCells : List CellId) : String :=
  let others :=
    String.intercalate ", "
      (((definingCells.filter (· ≠ cellId)).map
        (fun c => getCellDisplayName c notebook)))
  s!"Variable '{varName}' is defined in multiple cells (also in: {others})"

/-- Diagnostic the claim prescribes for one `ast.Name` store node of a
multiply-defined variable: it covers exactly the column interval
`[col_offset, end_col_offset]` on the node's line converted to 0-based,
and its message lists the other defining cells by display name. -/
def specMultiDefDiagnostic (notebook : NotebookDocument) (varName : String)
    (cellId : CellId) (definingCells : List CellId) (node : ASTNode) :
    Diagnostic :=
  { range :=
      { start := { line := nodeLineno node - 1, character := nodeColOffset node }
        stop :=
          { line := nodeLineno node - 1
            character := (nodeEndColOffset node).getD 0 } }
    message := specMultiDefMessage notebook varName cellId definingCells
    severity := severityError
    source := "marimo"
    code := "multiple-definition"
    data :=
      some { varName := varName, cellId := cellId, allCells := definingCells } }

/-! ## Session manager (session_manager.py)

A `Session` is an external marimo object constructed from the queue
manager, kernel manager and consumer; for the registry claims its
observable identity and executable suffice.  The registry's `closed`
field is the observation log of `session.close()` calls — marimo's
`Session.close` tears the kernel subprocess down. -/

structure SessionRec where
  sid : Nat
  executable : String
deriving DecidableEq

structure LspSessionManager where
  sessions : List (String × SessionRec)
  instantiated : List (String × Bool)
  closed : List SessionRec
deriving DecidableEq

namespace LspSessionManager

def initManager : LspSessionManager :=
  { sessions := [], instantiated := [], closed := [] }

def getSession (st : LspSessionManager) (uri : String) : Option SessionRec :=
  dictGet st.sessions uri

/-- Register a session and reset its instantiated flag (`add_session`). -/
def addSession (st : LspSessionManager) (uri : String) (s : SessionRec) :
    LspSessionManager :=
  { st with
    sessions := dictSet st.sessions uri s
    instantiated := dictSet st.instantiated uri false }

/-- Close and drop a session (`close_session`): pop the session, invoke
its `close()` (terminating its kernel — recorded in `closed`), and drop
the instantiated flag. -/
def closeSession (st : LspSessionManager) (uri : String) : LspSessionManager :=
  match dictGet st.sessions uri with
  | some s =>
      { sessions := dictPop st.sessions uri
        instantiated := dictPop st.instantiated uri
        closed := st.closed ++ [s] }
  | none => { st with instantiated := dictPop st.instantiated uri }

/-- Create a new session (`create_session`): any existing session for
the URI is closed first, then the freshly constructed session is
inserted.  Construction of the queue manager, kernel manager and
`Session` object is external; the constructed session arrives as the
`newSession` argument. -/
def createSession (st : LspSessionManager) (uri : String)
    (newSession : SessionRec) : LspSessionManager :=
  let st1 := if dictContains st.sessions uri then closeSession st uri else st
  addSession st1 uri newSession

def isInstantiated (st : LspSessionManager) (uri : String) : Bool :=
  (dictGet st.instantiated uri).getD false

end LspSessionManager

/-! ## Graph manager registry and the didClose handler

`GraphManagerRegistry` (diagnostics.py, lines 257-281) maps notebook
URIs to graph managers. -/

abbrev GraphManagerRegistry := List (String × NotebookGraphManager)

/-- Drop the manager for a notebook URI (`GraphManagerRegistry.remove`,
a `dict.pop(uri, None)`). -/
def registryRemove (r : GraphManagerRegistry) (uri : String) :
    GraphManagerRegistry :=
  dictPop r uri

/-- Combined server-side state the `notebookDocument/didClose` handler
touches. -/
structure ServerState where
  registry : GraphManagerRegistry
  manager : LspSessionManager
deriving DecidableEq

/-- Python's `str.startswith(pre)`, computed on the character lists so
that concrete instances evaluate inside the kernel. -/
def strStartsWith (s pre : String) : Bool := go s.data pre.data
where
  go : List Char → List Char → Bool
  | _, [] => true
  | [], _ :: _ => false
  | c :: cs, p :: ps => c = p && go cs ps

/-- Modelled from the spec: the dispatch wiring that removes the Graph
Manager entry on `notebookDocument/didClose` is not under `src/` — only
`GraphManagerRegistry` itself and the tests exercising the full server
are — so that part follows spec section 6: "Remove Graph Manager entry;
close session only if the URI scheme is 'untitled:'".  The session
branch is the `did_close` handler of src server.py (lines 111-118),
which closes the session exactly when the URI starts with
`untitled:`. -/
def didClose (st : ServerState) (uri : String) : ServerState :=
  let registry := registryRemove st.registry uri
  if strStartsWith uri "untitled:" then
    { registry := registry, manager := st.manager.closeSession uri }
  else
    { st with registry := registry }

/-! ## marimo/operation notification payloads

(session_consumer.py and diagnostics.py `publish_diagnostics`.)
A JSON payload value is either a string or a nested object. -/

inductive PayloadValue where
  | str (s : String)
  | obj (fields : List (String × PayloadValue))

/-- A JSON-RPC notification sent with `server.protocol.notify`. -/
structure Notification where
  method : String
  payload : List (String × PayloadValue)

/-- A kernel-emitted message: the `(op_name, data)` tuple that the
stream pump hands to the consumer callback. -/
structure KernelMessage where
  opName : String
  data : PayloadValue

/-- The consumer callback returned by `LspSessionConsumer.on_start`
(lines 38-56): it forwards a kernel message under `marimo/operation`
with the tuple split into top-level `op` and `data` keys. -/
def consumerHandleMessage (notebookUri : String) (msg : KernelMessage) :
    Notification :=
  { method := "marimo/operation"
    payload :=
      [("notebookUri", .str notebookUri),
       ("op", .str msg.opName),
       ("data", msg.data)] }

/-- `LspSessionConsumer.write_operation` (lines 58-72): same flattened
shape, with the operation serialized into `data`. -/
def consumerWriteOperation (notebookUri : String) (opName : String)
    (serialized : PayloadValue) : Notification :=
  { method := "marimo/operation"
    payload :=
      [("notebookUri", .str notebookUri),
       ("op", .str opName),
       ("data", serialized)] }

/-- `publish_diagnostics` (diagnostics.py, lines 490-501): the
server-derived variables announcement, sent as
`{notebookUri, operation}` with the serialized variables message as the
`operation` value. -/
def publishDiagnosticsNotification (notebookUri : String)
    (variablesMessage : PayloadValue) : Notification :=
  { method := "marimo/operation"
    payload :=
      [("notebookUri", .str notebookUri),
       ("operation", variablesMessage)] }

/-- The payload shape `{notebookUri: string, operation: <object>}` the
spec prescribes for every `marimo/operation` notification. -/
def hasOperationShape (n : Notification) : Prop :=
  ∃ uri op, n.payload = [("notebookUri", .str uri), ("operation", .obj op)]

/-! ## Kernel launch handshake

(kernel_manager.py `launch_kernel` and zeromq/kernel_server.py `main`.)
Stdin is a sequence of JSON lines; a line is modelled symbolically as
the serialization of the value it carries, so that the repo's
`encode_connection_info`/`decode_connection_info` and
`encode_kernel_args`/`decode_kernel_args` pairs become constructor and
pattern match. -/

/-- Socket endpoints of the IPC channels
(zeromq/queue_manager.py `ConnectionInfo`). -/
structure ConnectionInfo where
  control : Nat
  uiElement : Nat
  completion : Nat
  input : Nat
  win32Interrupt : Option Nat
deriving DecidableEq

/-- Launch-time configuration decoded by the kernel child
(types.py `KernelArgs`): the configuration fields are opaque serialized
blobs as far as the handshake is concerned. -/
structure KernelArgsPayload where
  configs : String
  appMetadata : String
  userConfig : String
  logLevel : Nat
deriving DecidableEq

/-- The full `ipc.KernelArgs` record the parent builds in
`LspKernelManager.start_kernel`: connection info plus the launch
configuration. -/
structure FullKernelArgs where
  connectionInfo : ConnectionInfo
  payload : KernelArgsPayload
deriving DecidableEq

/-- One line of the child's stdin, identified with the JSON value it
encodes. -/
inductive StdinLine where
  | connInfoLine (info : ConnectionInfo)
  | kernelArgsLine (payload : KernelArgsPayload)
  | otherLine (s : String)
deriving DecidableEq

/-- Modelled from the spec: `ipc.KernelArgs.encode_json` lives in the
external marimo package and its LSP-side counterpart writer is not under
`src/` (only the repo's encoders/decoders and the reading child are), so
the encoding follows spec section 4.B: "write `ConnectionInfo` then
`KernelArgs` to the child's stdin as two JSON lines". -/
def encodeJson (args : FullKernelArgs) : List StdinLine :=
  [.connInfoLine args.connectionInfo, .kernelArgsLine args.payload]

/-- `decode_connection_info` applied to one stdin line. -/
def decodeConnectionInfoLine : StdinLine → Option ConnectionInfo
  | .connInfoLine info => some info
  | _ => none

/-- `decode_kernel_args` applied to one stdin line. -/
def decodeKernelArgsLine : StdinLine → Option KernelArgsPayload
  | .kernelArgsLine payload => some payload
  | _ => none

/-- Result of the stdin handshake in `launch_kernel` (lines 49-52): the
lines written to the child's stdin, and whether stdin was closed
afterwards (`process.stdin.close()`). -/
structure LaunchStdin where
  lines : List StdinLine
  stdinClosed : Bool
deriving DecidableEq

/-- The parent side of the handshake: write `args.encode_json()` to the
child's stdin, flush, and close it. -/
def launchKernelStdin (args : FullKernelArgs) : LaunchStdin :=
  { lines := encodeJson args, stdinClosed := true }

/-- Observable outcome of the kernel child's `main`
(zeromq/kernel_server.py, lines 14-22): the decoded records, how many
stdin lines were consumed, and the connection endpoints the child
connects its sockets to (`ZeroMqQueueManager.from_connection_info`),
built only after both reads. -/
structure KernelLaunch where
  info : ConnectionInfo
  args : KernelArgsPayload
  linesRead : Nat
  connectedTo : ConnectionInfo
deriving DecidableEq

/-- The kernel child's stdin protocol: read one line and decode
`ConnectionInfo`, read a second line and decode `KernelArgs`, then
connect the sockets to the decoded endpoints.  A missing or undecodable
line is a fatal error (`none`). -/
def kernelServerMain (stdin : List StdinLine) : Option KernelLaunch :=
  match stdin with
  | l1 :: l2 :: _ =>
      match decodeConnectionInfoLine l1 with
      | none => none
      | some info =>
          match decodeKernelArgsLine l2 with
          | none => none
          | some args =>
              some { info := info, args := args, linesRead := 2,
                     connectedTo := info }
  | _ => none

/-! ## Witness fixtures (concrete inputs used by witness theorems) -/

/-- A compile function under which every source is a syntax error. -/
def compileNone : CellId → String → Option CompiledCell := fun _ _ => none

/-- A compiled cell declaring `x` with one store occurrence of `x`
at line 1, columns 0-1 (as compiling `x = 1` yields). -/
def compiledX : CompiledCell :=
  { defs := ["x"], mod := [.nameNode "x" true 1 0 (some 1), .other] }

/-- A compile function recognising the single source `"x = 1"`. -/
def compileX : CellId → String → Option CompiledCell := fun _ s =>
  if s = "x = 1" then some compiledX else none

/-- Manager fixture with one tracked cell source. -/
def managerW : NotebookGraphManager :=
  { NotebookGraphManager.init with cellSources := [("c1", "x = 1")] }

/-- Manager fixture whose graph holds a stray definition entry for a
cell that is also registered. -/
def managerW2 : NotebookGraphManager :=
  { NotebookGraphManager.init with
    cellSources := [("c1", "x = 1")]
    compiledCells := [("c1", compiledX)]
    graph := { cells := ["c1"], definitions := [("x", ["c1"])], cycles := [] } }

/-- Two-cell notebook fixture whose cell ids equal the document URIs. -/
def notebookW : NotebookDocument :=
  { uri := "file:///nb.py"
    cells :=
      [{ document := "u1", stableId := some "u1" },
       { document := "u2", stableId := some "u2" }] }

/-- Manager fixture with `x` defined by both cells of `notebookW`. -/
def managerW4 : NotebookGraphManager :=
  { NotebookGraphManager.init with
    compiledCells := [("u1", compiledX), ("u2", compiledX)]
    graph :=
      { cells := ["u1", "u2"]
        definitions := [("x", ["u1", "u2"])]
        cycles := [] } }

/-- Notebook fixture whose single cell's stable id differs from its
document URI. -/
def notebookW10 : NotebookDocument :=
  { uri := "file:///nb.py"
    cells := [{ document := "file:///nb.py#cell1", stableId := some "abc" }] }

/-- Manager fixture registering the mismatched cell id `abc` of
`notebookW10` with a self-loop cycle and a multiply-defined name. -/
def managerW10 : NotebookGraphManager :=
  { NotebookGraphManager.init with
    compiledCells := [("abc", compiledX), ("zzz", compiledX)]
    graph :=
      { cells := ["abc", "zzz"]
        definitions := [("x", ["abc", "zzz"])]
        cycles := [[("abc", "abc")]] } }

/-- Session manager fixture holding one session. -/
def sessionManagerW : LspSessionManager :=
  { sessions := [("file:///a.py", { sid := 7, executable := "py3" })]
    instantiated := [("file:///a.py", true)]
    closed := [] }

/-- Server-state fixture with a graph manager entry and a session for a
`file://` notebook. -/
def serverStateW : ServerState :=
  { registry := [("file:///nb.py", NotebookGraphManager.init)]
    manager :=
      { sessions := [("file:///nb.py", { sid := 1, executable := "py3" })]
        instantiated := [("file:///nb.py", false)]
        closed := [] } }

/-- LRU cache fixture at full capacity 2, mapping cell-document URIs to
cell ids. -/
def lruW : LRUCache String CellId :=
  { entries := [("a", "1"), ("b", "2")], capacity := 2 }

end MarimoLsp

namespace MarimoLsp

/-! ## Dictionary lemmas -/

theorem dictGet_dictSet_self {α β : Type} [DecidableEq α]
    (d : List (α × β)) (k : α) (v : β) : dictGet (dictSet d k v) k = some v := by
  induction d with
  | nil => simp [dictSet, dictGet]
  | cons hd tl ih =>
      by_cases h : hd.1 = k
      · simp [dictSet, dictGet, h]
      · simpa [dictSet, dictGet, h] using ih

theorem dictGet_dictSet_ne {α β : Type} [DecidableEq α]
    (d : List (α × β)) (k u : α) (v : β) (h : u ≠ k) :
    dictGet (dictSet d k v) u = dictGet d u := by
  have hku : ¬(k = u) := fun hh => h hh.symm
  induction d with
  | nil => simp only [dictSet, dictGet, if_neg hku]
  | cons hd tl ih =>
      by_cases hk : hd.1 = k
      · have hdu : ¬(hd.1 = u) := by rw [hk]; exact hku
        simp only [dictSet, if_pos hk, dictGet, if_neg hku, if_neg hdu]
      · by_cases hu : hd.1 = u
        · simp only [dictSet, if_neg hk, dictGet, if_pos hu]
        · simp only [dictSet, if_neg hk, dictGet, if_neg hu]
          exact ih

theorem dictGet_append {α β : Type} [DecidableEq α]
    (d d' : List (α × β)) (k : α) :
    dictGet (d ++ d') k = ((dictGet d k).orElse (fun _ => dictGet d' k)) := by
  induction d with
  | nil => simp [dictGet]
  | cons hd tl ih =>
      by_cases h : hd.1 = k
      · simp [dictGet, h]
      · simpa [dictGet, h] using ih

theorem dictPop_sublist {α β : Type} [DecidableEq α]
    (d : List (α × β)) (k : α) : (dictPop d k).Sublist d := by
  induction d with
  | nil => simp [dictPop]
  | cons hd tl ih =>
      by_cases h : hd.1 = k
      · simp only [dictPop, if_pos h]
        exact List.sublist_cons_self hd tl
      · simp only [dictPop, if_neg h]
        exact List.Sublist.cons₂ hd ih

theorem dictGet_eq_none_of_not_mem {α β : Type} [DecidableEq α]
    (d : List (α × β)) (k : α) (h : k ∉ d.map Prod.fst) :
    dictGet d k = none := by
  induction d with
  | nil => rfl
  | cons hd tl ih =>
      simp only [List.map_cons, List.mem_cons] at h
      push_neg at h
      have hne : hd.1 ≠ k := fun hh => h.1 hh.symm
      simp only [dictGet, if_neg hne]
      exact ih h.2

theorem dictGet_dictPop_self {α β : Type} [DecidableEq α]
    (d : List (α × β)) (k : α) (h : (d.map Prod.fst).Nodup) :
    dictGet (dictPop d k) k = none := by
  induction d with
  | nil => simp [dictPop, dictGet]
  | cons hd tl ih =>
      simp only [List.map_cons, List.nodup_cons] at h
      by_cases hk : hd.1 = k
      · have hpop : dictPop (hd :: tl) k = tl := by simp [dictPop, hk]
        rw [hpop]
        exact dictGet_eq_none_of_not_mem tl k (hk ▸ h.1)
      · simp only [dictPop, if_neg hk, dictGet, if_neg hk]
        exact ih h.2

theorem dictGet_dictPop_absent {α β : Type} [DecidableEq α]
    (d : List (α × β)) (k : α) (h : dictGet d k = none) :
    dictPop d k = d := by
  induction d with
  | nil => simp [dictPop]
  | cons hd tl ih =>
      by_cases hk : hd.1 = k
      · simp [dictGet, hk] at h
      · simp only [dictGet, if_neg hk] at h
        simp [dictPop, hk, ih h]

theorem dictPop_length {α β : Type} [DecidableEq α]
    (d : List (α × β)) (k : α) (h : dictContains d k = true) :
    (dictPop d k).length + 1 = d.length := by
  induction d with
  | nil => simp [dictContains, dictGet] at h
  | cons hd tl ih =>
      by_cases hk : hd.1 = k
      · simp [dictPop, hk]
      · simp only [dictContains, dictGet, if_neg hk] at h
        simp [dictPop, hk, ih h]

theorem dictGet_of_mem_nodup {α β : Type} [DecidableEq α]
    (d : List (α × β)) (k : α) (v : β) (hmem : (k, v) ∈ d)
    (hnd : (d.map Prod.fst).Nodup) : dictGet d k = some v := by
  induction d with
  | nil => simp at hmem
  | cons hd tl ih =>
      simp only [List.map_cons, List.nodup_cons] at hnd
      rcases List.mem_cons.mp hmem with heq | htl
      · subst heq
        simp [dictGet]
      · have hne : hd.1 ≠ k := by
          intro hk
          exact hnd.1 (hk ▸ (List.mem_map.mpr ⟨(k, v), htl, rfl⟩))
        simp only [dictGet, if_neg hne]
        exact ih htl hnd.2

end MarimoLsp

namespace MarimoLsp

theorem dictGet_none_not_mem {α β : Type} [DecidableEq α]
    (d : List (α × β)) (k : α) (h : dictGet d k = none) :
    k ∉ d.map Prod.fst := by
  induction d with
  | nil => simp
  | cons hd tl ih =>
      by_cases hk : hd.1 = k
      · simp [dictGet, hk] at h
      · simp only [dictGet, if_neg hk] at h
        simp only [List.map_cons, List.mem_cons]
        push_neg
        exact ⟨fun hh => hk hh.symm, ih h⟩

theorem dictSet_absent {α β : Type} [DecidableEq α]
    (d : List (α × β)) (k : α) (v : β) (h : dictGet d k = none) :
    dictSet d k v = d ++ [(k, v)] := by
  induction d with
  | nil => rfl
  | cons hd tl ih =>
      by_cases hk : hd.1 = k
      · simp [dictGet, hk] at h
      · simp only [dictGet, if_neg hk] at h
        simp [dictSet, hk, ih h]

theorem dictPop_append_absent {α β : Type} [DecidableEq α]
    (d e : List (α × β)) (k : α) (h : dictGet d k = none) :
    dictPop (d ++ e) k = d ++ dictPop e k := by
  induction d with
  | nil => rfl
  | cons hd tl ih =>
      by_cases hk : hd.1 = k
      · simp [dictGet, hk] at h
      · simp only [dictGet, if_neg hk] at h
        simp [dictPop, hk, ih h]

/-- C1: if the graph manager's stored source for a cell equals the new
source, `update_cell` leaves the entire state unchanged — graph,
compiled cells, cached diagnostics and URI cache included — and in
particular the stale flag stays false after a preceding `mark_clean`. -/
theorem c1_update_cell_unchanged_noop
    (compile : CellId → String → Option CompiledCell)
    (st : NotebookGraphManager) (c : CellId) (s : String)
    (h : dictGet st.cellSources c = some s) :
    NotebookGraphManager.updateCell compile st c s = st ∧
      (NotebookGraphManager.updateCell compile st.markClean c s).stale = false := by
  constructor
  · simp [NotebookGraphManager.updateCell, h]
  · simp [NotebookGraphManager.updateCell, NotebookGraphManager.markClean, h]

/-- Witness for C1 at a concrete manager whose stored source for `c1`
is `x = 1`. -/
theorem c1_witness :
    dictGet managerW.cellSources "c1" = some "x = 1" ∧
      (NotebookGraphManager.updateCell compileNone managerW "c1" "x = 1" = managerW ∧
        (NotebookGraphManager.updateCell compileNone managerW.markClean "c1"
            "x = 1").stale = false) :=
  ⟨by decide,
    c1_update_cell_unchanged_noop compileNone managerW "c1" "x = 1" (by decide)⟩

/-- C7: the manager's URI→CellId cache has capacity 1000, and the cache
obeys the LRU law — a hitting `get` moves the key to the
most-recently-used end, a `put` of a present key repositions it without
eviction (size preserved), and a `put` of a new key at full capacity
evicts exactly the least-recently-accessed entry (the head of the
order) before inserting. -/
theorem c7_lru_laws (cache : LRUCache String CellId) (k1 k2 k3 : String)
    (v1 v v' : CellId)
    (h1 : dictGet cache.entries k1 = some v1)
    (h2 : dictContains cache.entries k2 = true)
    (h3 : dictGet cache.entries k3 = none)
    (hfull : cache.entries.length = cache.capacity) :
    NotebookGraphManager.init.uriToCellIdCache.capacity = 1000 ∧
      cache.get k1 =
        (some v1,
          { cache with entries := dictPop cache.entries k1 ++ [(k1, v1)] }) ∧
      ((cache.put k2 v).entries = dictPop cache.entries k2 ++ [(k2, v)] ∧
        (cache.put k2 v).entries.length = cache.entries.length) ∧
      (cache.put k3 v').entries = cache.entries.drop 1 ++ [(k3, v')] := by
  refine ⟨rfl, ?_, ⟨?_, ?_⟩, ?_⟩
  · simp [LRUCache.get, h1]
  · simp [LRUCache.put, h2]
  · have hl := dictPop_length cache.entries k2 h2
    simp only [LRUCache.put, h2, if_pos, List.length_append, List.length_cons,
      List.length_nil]
    omega
  · have hc : dictContains cache.entries k3 = false := by
      simp [dictContains, h3]
    simp [LRUCache.put, hc, hfull]

/-- Witness for C7 at a concrete full cache of capacity 2 with keys
`a` (hit), `b` (re-put) and `c` (new key causing eviction). -/
theorem c7_witness :
    dictGet lruW.entries "a" = some "1" ∧
      dictContains lruW.entries "b" = true ∧
      dictGet lruW.entries "c" = none ∧
      lruW.entries.length = lruW.capacity ∧
      (NotebookGraphManager.init.uriToCellIdCache.capacity = 1000 ∧
        lruW.get "a" =
          (some "1",
            { lruW with entries := dictPop lruW.entries "a" ++ [("a", "1")] }) ∧
        ((lruW.put "b" "9").entries = dictPop lruW.entries "b" ++ [("b", "9")] ∧
          (lruW.put "b" "9").entries.length = lruW.entries.length) ∧
        (lruW.put "c" "9").entries = lruW.entries.drop 1 ++ [("c", "9")]) :=
  ⟨by decide, by decide, by decide, by decide,
    c7_lru_laws lruW "a" "b" "c" "1" "9" "9" (by decide) (by decide) (by decide)
      (by decide)⟩

/-- C8 (code bug): the session consumer's forwarded kernel message is
published under `marimo/operation` with the flattened keys
`notebookUri`/`op`/`data` instead of the specified
`{notebookUri, operation}` shape, while the server-derived variables
announcement of `publish_diagnostics` does carry the specified shape.
Evaluated at the concrete kernel message `("cell-op", {cell_id:
"cell1"})`. -/
theorem c8_operation_shape_bug :
    (consumerHandleMessage "file:///nb.py"
          { opName := "cell-op",
            data := .obj [("cell_id", .str "cell1")] }).payload.map Prod.fst =
        ["notebookUri", "op", "data"] ∧
      ¬hasOperationShape
          (consumerHandleMessage "file:///nb.py"
            { opName := "cell-op", data := .obj [("cell_id", .str "cell1")] }) ∧
      (publishDiagnosticsNotification "file:///nb.py"
            (.obj [("op", .str "variables")])).payload.map Prod.fst =
        ["notebookUri", "operation"] := by
  refine ⟨rfl, ?_, rfl⟩
  rintro ⟨uri, op, h⟩
  simp [consumerHandleMessage] at h

/-- C9: the parent writes `ConnectionInfo` then `KernelArgs` to the
kernel child's stdin as exactly two JSON lines and closes stdin, and the
child reads exactly those two lines — `ConnectionInfo` first, then
`KernelArgs` — before connecting its sockets to the endpoints the first
line carries. -/
theorem c9_kernel_handshake (args : FullKernelArgs) :
    launchKernelStdin args =
        { lines := [.connInfoLine args.connectionInfo,
                    .kernelArgsLine args.payload],
          stdinClosed := true } ∧
      (launchKernelStdin args).lines.length = 2 ∧
      kernelServerMain (launchKernelStdin args).lines =
        some { info := args.connectionInfo, args := args.payload,
               linesRead := 2, connectedTo := args.connectionInfo } :=
  ⟨rfl, rfl, rfl⟩

end MarimoLsp

namespace MarimoLsp

theorem dictFilter_eq_nil {α β : Type} [DecidableEq α]
    (d : List (α × β)) (k : α) (h : dictGet d k = none) :
    d.filter (fun p => p.1 = k) = [] := by
  induction d with
  | nil => rfl
  | cons hd tl ih =>
      by_cases hk : hd.1 = k
      · simp [dictGet, hk] at h
      · simp only [dictGet, if_neg hk] at h
        simp [List.filter_cons, hk, ih h]

/-- C5: creating a session for a URI that already has one closes the
existing session first (terminating its kernel) and only then inserts
the new one; after two consecutive `create_session` calls for the same
URI exactly one session is registered — the second — with the first's
`close()` invoked and the instantiated flag reset to false. -/
theorem c5_create_session_replaces (st : LspSessionManager) (uri : String)
    (s1 s2 : SessionRec) (hnd : (st.sessions.map Prod.fst).Nodup) :
    (st.createSession uri s1).createSession uri s2 =
        ((st.createSession uri s1).closeSession uri).addSession uri s2 ∧
      dictGet ((st.createSession uri s1).createSession uri s2).sessions uri =
        some s2 ∧
      s1 ∈ ((st.createSession uri s1).createSession uri s2).closed ∧
      ((st.createSession uri s1).createSession uri s2).sessions.filter
          (fun p => p.1 = uri) = [(uri, s2)] ∧
      dictGet ((st.createSession uri s1).createSession uri s2).instantiated
          uri = some false := by
  have hb1 : dictGet
      (if dictContains st.sessions uri then st.closeSession uri
       else st).sessions uri = none := by
    by_cases hc : dictContains st.sessions uri = true
    · rw [if_pos hc]
      obtain ⟨s0, hs0⟩ : ∃ s0, dictGet st.sessions uri = some s0 := by
        cases hval : dictGet st.sessions uri with
        | none => simp [dictContains, hval] at hc
        | some s0 => exact ⟨s0, rfl⟩
      simp only [LspSessionManager.closeSession, hs0]
      exact dictGet_dictPop_self st.sessions uri hnd
    · rw [if_neg hc]
      cases hval : dictGet st.sessions uri with
      | none => rfl
      | some s0 => exact absurd (by simp [dictContains, hval]) hc
  have h1sess : (st.createSession uri s1).sessions =
      (if dictContains st.sessions uri then st.closeSession uri
       else st).sessions ++ [(uri, s1)] := by
    simp only [LspSessionManager.createSession, LspSessionManager.addSession]
    exact dictSet_absent _ uri s1 hb1
  have h1get : dictGet (st.createSession uri s1).sessions uri = some s1 := by
    simp only [LspSessionManager.createSession, LspSessionManager.addSession]
    exact dictGet_dictSet_self _ uri s1
  have h1contains : dictContains (st.createSession uri s1).sessions uri = true := by
    simp [dictContains, h1get]
  have heq2 : (st.createSession uri s1).createSession uri s2 =
      ((st.createSession uri s1).closeSession uri).addSession uri s2 := by
    rw [LspSessionManager.createSession, if_pos h1contains]
  have hclosed1 : ((st.createSession uri s1).closeSession uri).closed =
      (st.createSession uri s1).closed ++ [s1] := by
    simp only [LspSessionManager.closeSession, h1get]
  have hsess1 : ((st.createSession uri s1).closeSession uri).sessions =
      (if dictContains st.sessions uri then st.closeSession uri
       else st).sessions := by
    simp only [LspSessionManager.closeSession, h1get]
    rw [h1sess, dictPop_append_absent _ _ uri hb1]
    simp only [dictPop, if_pos, List.append_nil]
    rfl
  refine ⟨heq2, ?_, ?_, ?_, ?_⟩
  · rw [heq2]
    simp only [LspSessionManager.addSession]
    exact dictGet_dictSet_self _ uri s2
  · rw [heq2]
    simp only [LspSessionManager.addSession, hclosed1]
    exact List.mem_append.mpr (Or.inr (List.mem_singleton.mpr rfl))
  · rw [heq2]
    simp only [LspSessionManager.addSession, hsess1]
    rw [dictSet_absent _ uri s2 hb1, List.filter_append,
      dictFilter_eq_nil _ uri hb1]
    simp
  · rw [heq2]
    simp only [LspSessionManager.addSession]
    exact dictGet_dictSet_self _ uri false

/-- Witness for C5 at a concrete one-session registry. -/
theorem c5_witness :
    (sessionManagerW.sessions.map Prod.fst).Nodup ∧
      ((sessionManagerW.createSession "file:///a.py"
              { sid := 8, executable := "py3" }).createSession "file:///a.py"
            { sid := 9, executable := "pypy" } =
          ((sessionManagerW.createSession "file:///a.py"
                { sid := 8, executable := "py3" }).closeSession
              "file:///a.py").addSession "file:///a.py"
            { sid := 9, executable := "pypy" } ∧
        dictGet
            ((sessionManagerW.createSession "file:///a.py"
                  { sid := 8, executable := "py3" }).createSession "file:///a.py"
              { sid := 9, executable := "pypy" }).sessions "file:///a.py" =
          some { sid := 9, executable := "pypy" } ∧
        ({ sid := 8, executable := "py3" } : SessionRec) ∈
          ((sessionManagerW.createSession "file:///a.py"
                { sid := 8, executable := "py3" }).createSession "file:///a.py"
            { sid := 9, executable := "pypy" }).closed ∧
        ((sessionManagerW.createSession "file:///a.py"
                { sid := 8, executable := "py3" }).createSession "file:///a.py"
            { sid := 9, executable := "pypy" }).sessions.filter
            (fun p => p.1 = "file:///a.py") =
          [("file:///a.py", { sid := 9, executable := "pypy" })] ∧
        dictGet
            ((sessionManagerW.createSession "file:///a.py"
                  { sid := 8, executable := "py3" }).createSession "file:///a.py"
              { sid := 9, executable := "pypy" }).instantiated "file:///a.py" =
          some false) :=
  ⟨by decide,
    c5_create_session_replaces sessionManagerW "file:///a.py"
      { sid := 8, executable := "py3" } { sid := 9, executable := "pypy" }
      (by decide)⟩

end MarimoLsp

namespace MarimoLsp

/-- C6 counterexample: at the concrete server state `serverStateW`
holding a Graph Manager entry and a session for the `file://` notebook
`file:///nb.py`, the didClose handler removes the Graph Manager entry
even though the URI scheme is not `untitled:` — refuting the claim that
the entry is removed if and only if the scheme is `untitled:`. -/
theorem c6_counterexample :
    ¬((dictGet (didClose serverStateW "file:///nb.py").registry
          "file:///nb.py" = none) ↔
        strStartsWith "file:///nb.py" "untitled:" = true) := by
  decide

/-- C6 (amended): on `notebookDocument/didClose` the server always
removes the notebook's Graph Manager entry; the session is closed (and
its kernel terminated) exactly when the URI scheme is `untitled:`, so
closing a `file://` notebook leaves its session registered and its
close log untouched. -/
theorem c6_did_close_amended (st : ServerState) (uri : String)
    (hnd : (st.registry.map Prod.fst).Nodup) :
    dictGet (didClose st uri).registry uri = none ∧
      (didClose st uri).manager.sessions =
        (if strStartsWith uri "untitled:" = true then
          dictPop st.manager.sessions uri
         else st.manager.sessions) ∧
      (didClose st uri).manager.closed =
        st.manager.closed ++
          (if strStartsWith uri "untitled:" = true then
            (dictGet st.manager.sessions uri).toList
           else []) ∧
      (didClose st uri).manager.instantiated =
        (if strStartsWith uri "untitled:" = true then
          dictPop st.manager.instantiated uri
         else st.manager.instantiated) := by
  cases hu : strStartsWith uri "untitled:" with
  | false =>
      refine ⟨?_, ?_, ?_, ?_⟩ <;>
        simp [didClose, registryRemove, hu, dictGet_dictPop_self _ _ hnd]
  | true =>
      cases hs : dictGet st.manager.sessions uri with
      | none =>
          refine ⟨?_, ?_, ?_, ?_⟩ <;>
            simp [didClose, registryRemove, hu,
              LspSessionManager.closeSession, hs,
              dictGet_dictPop_self _ _ hnd, dictGet_dictPop_absent _ _ hs]
      | some s0 =>
          refine ⟨?_, ?_, ?_, ?_⟩ <;>
            simp [didClose, registryRemove, hu,
              LspSessionManager.closeSession, hs,
              dictGet_dictPop_self _ _ hnd]

/-- Witness for the amended C6 at a concrete untitled notebook URI. -/
theorem c6_witness :
    (serverStateW.registry.map Prod.fst).Nodup ∧
      (dictGet (didClose serverStateW "untitled:U9").registry "untitled:U9" =
          none ∧
        (didClose serverStateW "untitled:U9").manager.sessions =
          (if strStartsWith "untitled:U9" "untitled:" = true then
            dictPop serverStateW.manager.sessions "untitled:U9"
           else serverStateW.manager.sessions) ∧
        (didClose serverStateW "untitled:U9").manager.closed =
          serverStateW.manager.closed ++
            (if strStartsWith "untitled:U9" "untitled:" = true then
              (dictGet serverStateW.manager.sessions "untitled:U9").toList
             else []) ∧
        (didClose serverStateW "untitled:U9").manager.instantiated =
          (if strStartsWith "untitled:U9" "untitled:" = true then
            dictPop serverStateW.manager.instantiated "untitled:U9"
           else serverStateW.manager.instantiated)) :=
  ⟨by decide, c6_did_close_amended serverStateW "untitled:U9" (by decide)⟩

end MarimoLsp

namespace MarimoLsp

/-- C2: updating a cell with a source that fails to compile leaves the
cell absent from the graph's cells and from every `definitions` entry,
drops its stored compiled artefact, and keeps the new source text
tracked in the cell-source map. -/
theorem c2_syntax_error_cell_absent
    (compile : CellId → String → Option CompiledCell)
    (st : NotebookGraphManager) (c : CellId) (s : String)
    (hfail : compile c s = none)
    (hchange : dictGet st.cellSources c ≠ some s)
    (hndC : (st.compiledCells.map Prod.fst).Nodup)
    (hwf : ∀ p ∈ st.graph.definitions, c ∈ p.2 → c ∈ st.graph.cells) :
    c ∉ (NotebookGraphManager.updateCell compile st c s).graph.cells ∧
      (∀ p ∈ (NotebookGraphManager.updateCell compile st c s).graph.definitions,
        c ∉ p.2) ∧
      dictGet (NotebookGraphManager.updateCell compile st c s).compiledCells c =
        none ∧
      dictGet (NotebookGraphManager.updateCell compile st c s).cellSources c =
        some s := by
  refine ⟨?_, ?_, ?_, ?_⟩
  · simp only [NotebookGraphManager.updateCell, if_neg hchange, hfail]
    by_cases hin : c ∈ st.graph.cells
    · rw [if_pos hin]
      simp [DirectedGraph.deleteCell]
    · rw [if_neg hin]
      exact hin
  · simp only [NotebookGraphManager.updateCell, if_neg hchange, hfail]
    by_cases hin : c ∈ st.graph.cells
    · rw [if_pos hin]
      intro p hp hcp
      simp only [DirectedGraph.deleteCell, List.mem_filter, List.mem_map] at hp
      obtain ⟨⟨q, hq, hpq⟩, _⟩ := hp
      rw [← hpq] at hcp
      simp at hcp
    · rw [if_neg hin]
      intro p hp hcp
      exact hin (hwf p hp hcp)
  · simp only [NotebookGraphManager.updateCell, if_neg hchange, hfail]
    exact dictGet_dictPop_self st.compiledCells c hndC
  · simp only [NotebookGraphManager.updateCell, if_neg hchange, hfail]
    exact dictGet_dictSet_self st.cellSources c s

/-- Witness for C2: the concrete manager `managerW2` updated with the
always-failing compile at the fresh source `x = (`. -/
theorem c2_witness :
    compileNone "c1" "x = (" = none ∧
      dictGet managerW2.cellSources "c1" ≠ some "x = (" ∧
      (managerW2.compiledCells.map Prod.fst).Nodup ∧
      (∀ p ∈ managerW2.graph.definitions,
        "c1" ∈ p.2 → "c1" ∈ managerW2.graph.cells) ∧
      ("c1" ∉
          (NotebookGraphManager.updateCell compileNone managerW2 "c1"
              "x = (").graph.cells ∧
        (∀ p ∈ (NotebookGraphManager.updateCell compileNone managerW2 "c1"
              "x = (").graph.definitions, "c1" ∉ p.2) ∧
        dictGet (NotebookGraphManager.updateCell compileNone managerW2 "c1"
              "x = (").compiledCells "c1" = none ∧
        dictGet (NotebookGraphManager.updateCell compileNone managerW2 "c1"
              "x = (").cellSources "c1" = some "x = (") :=
  ⟨by decide, by decide, by decide, by decide,
    c2_syntax_error_cell_absent compileNone managerW2 "c1" "x = (" (by decide)
      (by decide) (by decide) (by decide)⟩

/-- C3: one notebook-document change event is applied in the fixed
order mappings → closes → opens → text updates (equal to the spec-side
phase composition `specSync`), and an event carrying no cells field
changes nothing. -/
theorem c3_sync_order (compile : CellId → String → Option CompiledCell)
    (ws : Workspace) (st : NotebookGraphManager) (change : ChangeEvent) :
    NotebookGraphManager.sync compile ws st change =
        SpecSync.specSync compile ws st change ∧
      NotebookGraphManager.sync compile ws st { cells := none } = st := by
  constructor
  · rcases change with ⟨_ | cc⟩
    · rfl
    · rcases cc with ⟨structOpt, dataOpt, textOpt⟩
      rcases structOpt with _ | ⟨arr, dOpen, dClose⟩ <;>
        rcases dataOpt with _ | data <;>
          rcases textOpt with _ | texts <;>
            first
            | (rcases arr with _ | arrCells <;>
                rcases dOpen with _ | opens <;>
                  rcases dClose with _ | closes <;>
                    simp [NotebookGraphManager.sync, SpecSync.specSync,
                      SpecSync.phaseMappings, SpecSync.phaseCloses,
                      SpecSync.phaseOpens, SpecSync.phaseTexts,
                      NotebookGraphManager.persistMapping, List.foldl_append])
            | simp [NotebookGraphManager.sync, SpecSync.specSync,
                SpecSync.phaseMappings, SpecSync.phaseCloses,
                SpecSync.phaseOpens, SpecSync.phaseTexts,
                NotebookGraphManager.persistMapping, List.foldl_append]
  · rfl

end MarimoLsp

namespace MarimoLsp

/-! ## List lemmas for the diagnostic grouping proofs -/

theorem foldl_filter_id {α β : Type} [DecidableEq α] (f : β → α → β) (x : α)
    (hx : ∀ acc, f acc x = acc) :
    ∀ (l : List α) (a : β), l.foldl f a = (l.filter (fun y => y ≠ x)).foldl f a := by
  intro l
  induction l with
  | nil => intro a; rfl
  | cons hd tl ih =>
      intro a
      by_cases h : hd = x
      · subst h
        rw [List.foldl_cons, hx]
        rw [List.filter_cons, if_neg (by simp)]
        exact ih a
      · rw [List.filter_cons, if_pos (by simp [h]), List.foldl_cons,
          List.foldl_cons]
        exact ih (f a hd)

theorem filterOfMap {α β : Type} (l : List α) (f : α → β) (p : β → Bool) :
    (l.map f).filter p = (l.filter (fun x => p (f x))).map f := by
  induction l with
  | nil => rfl
  | cons hd tl ih =>
      by_cases h : p (f hd) = true
      · simp [List.filter_cons, h, ih]
      · simp only [Bool.not_eq_true] at h
        simp [List.filter_cons, h, ih]

theorem filterFlatMap {α β : Type} (l : List α) (g : α → List β) (p : β → Bool) :
    (l.flatMap g).filter p = l.flatMap (fun x => (g x).filter p) := by
  induction l with
  | nil => rfl
  | cons hd tl ih => simp [List.flatMap_cons, List.filter_append, ih]

theorem flatMapNil {α β : Type} (l : List α) (h : α → List β)
    (hall : ∀ y ∈ l, h y = []) : l.flatMap h = [] := by
  induction l with
  | nil => rfl
  | cons hd tl ih =>
      rw [List.flatMap_cons, hall hd (List.mem_cons_self hd tl), List.nil_append]
      exact ih (fun y hy => hall y (List.mem_cons_of_mem hd hy))

theorem flatMapSingle {α β : Type} (l : List α) (x : α) (h : α → List β)
    (hx : x ∈ l) (hnd : l.Nodup) (hother : ∀ y ∈ l, y ≠ x → h y = []) :
    l.flatMap h = h x := by
  induction l with
  | nil => simp at hx
  | cons hd tl ih =>
      rw [List.nodup_cons] at hnd
      by_cases hhd : hd = x
      · subst hhd
        rw [List.flatMap_cons, flatMapNil tl h, List.append_nil]
        intro y hy
        exact hother y (List.mem_cons_of_mem hd hy)
          (fun hyx => hnd.1 (hyx ▸ hy))
      · have hxtl : x ∈ tl := by
          rcases List.mem_cons.mp hx with h' | h'
          · exact absurd h'.symm hhd
          · exact h'
        rw [List.flatMap_cons,
          hother hd (List.mem_cons_self hd tl) hhd, List.nil_append]
        exact ih hxtl hnd.2
          (fun y hy => hother y (List.mem_cons_of_mem hd hy))

theorem filterAll {α : Type} (l : List α) (p : α → Bool)
    (h : ∀ x ∈ l, p x = true) : l.filter p = l := by
  induction l with
  | nil => rfl
  | cons hd tl ih =>
      rw [List.filter_cons, if_pos (h hd (List.mem_cons_self hd tl))]
      rw [ih (fun x hx => h x (List.mem_cons_of_mem hd hx))]

theorem filterN {α : Type} (l : List α) (p : α → Bool)
    (h : ∀ x ∈ l, p x = false) : l.filter p = [] := by
  induction l with
  | nil => rfl
  | cons hd tl ih =>
      rw [List.filter_cons, if_neg (by simp [h hd (List.mem_cons_self hd tl)])]
      exact ih (fun x hx => h x (List.mem_cons_of_mem hd hx))

/-! ## Diagnostic-map grouping lemmas -/

theorem diagsAt_setdefaultAppend (m : DiagMap) (k : String) (d : Diagnostic)
    (u : String) :
    diagsAt (setdefaultAppend m k d) u =
      diagsAt m u ++ (if k = u then [d] else []) := by
  unfold setdefaultAppend
  cases hget : dictGet m k with
  | none =>
      unfold diagsAt
      rw [dictGet_append]
      by_cases hku : k = u
      · subst hku
        rw [hget]
        simp [dictGet]
      · simp [dictGet, hku]
  | some l =>
      by_cases hku : k = u
      · subst hku
        unfold diagsAt
        rw [dictGet_dictSet_self, hget]
        simp
      · unfold diagsAt
        rw [dictGet_dictSet_ne m k u (l ++ [d]) (fun hh => hku hh.symm)]
        simp [hku]

theorem diagsAt_foldl (es : List (String × Diagnostic)) (m : DiagMap)
    (u : String) :
    diagsAt (es.foldl (fun acc p => setdefaultAppend acc p.1 p.2) m) u =
      diagsAt m u ++ (es.filter (fun p => p.1 = u)).map (·.2) := by
  induction es generalizing m with
  | nil => simp
  | cons hd tl ih =>
      rw [List.foldl_cons, ih, diagsAt_setdefaultAppend]
      by_cases h : hd.1 = u
      · simp [List.filter_cons, h, List.append_assoc]
      · simp [List.filter_cons, h]

/-- Every emission of `multiDefEntriesFor` records its variable, cell
and defining-cell list in the diagnostic's data, and is keyed by the
cell's found URI. -/
theorem multiDefEntriesFor_shape (nb : NotebookDocument)
    (gm : NotebookGraphManager) (v : String) (dcs : List CellId) (c : CellId)
    (p : String × Diagnostic) (hp : p ∈ multiDefEntriesFor nb gm v dcs c) :
    (∃ u, findCellUri nb c = some u ∧ p.1 = u) ∧
      p.2.data = some { varName := v, cellId := c, allCells := dcs } := by
  unfold multiDefEntriesFor at hp
  cases hcomp : gm.getCompiledCell c with
  | none => rw [hcomp] at hp; simp at hp
  | some compiled =>
      rw [hcomp] at hp
      cases huri : findCellUri nb c with
      | none => rw [huri] at hp; simp at hp
      | some u =>
          rw [huri] at hp
          simp only [List.mem_map] at hp
          obtain ⟨pos, _, hpos⟩ := hp
          rw [← hpos]
          exact ⟨⟨u, rfl, rfl⟩, rfl⟩

end MarimoLsp

namespace MarimoLsp

theorem findCellUri_eq_none (nb : NotebookDocument) (cellId : CellId)
    (h : ∀ cell ∈ nb.cells, cell.document ≠ cellId) :
    findCellUri nb cellId = none := by
  have hfind : nb.cells.find? (fun cell => cell.document = cellId) = none :=
    List.find?_eq_none.mpr (fun x hx => by simp [h x hx])
  simp [findCellUri, hfind]

theorem cycleDiagStep_miss (nb : NotebookDocument) (g : DirectedGraph)
    (cellId : CellId) (h : findCellUri nb cellId = none) (acc : DiagMap) :
    cycleDiagStep nb g acc cellId = acc := by
  cases hr : relevantCycles g cellId with
  | nil => simp [cycleDiagStep, hr]
  | cons cy tl => simp [cycleDiagStep, hr, h]

/-- C10: for a cell registered in the graph under a CellId that matches
no notebook cell's document URI (as happens when the metadata stableId
differs from the document URI), the URI lookup misses and the cell is
silently skipped: removing it from the cycle-diagnostic iteration
changes nothing, and no emitted multiple-definition diagnostic carries
it as its defining cell. -/
theorem c10_mismatched_cell_id_skipped (nb : NotebookDocument)
    (g : DirectedGraph) (gm : NotebookGraphManager) (cellId : CellId)
    (hmiss : ∀ cell ∈ nb.cells, cell.document ≠ cellId) :
    createCycleDiagnostics nb g =
        (if g.cycles.isEmpty then []
         else ((cellsInCycles g).filter (fun y => y ≠ cellId)).foldl
           (cycleDiagStep nb g) []) ∧
      (∀ uri, ∀ d ∈ diagsAt (createMultipleDefinitionDiagnostics nb gm) uri,
        ∀ dd, d.data = some dd → dd.cellId ≠ cellId) := by
  have huri := findCellUri_eq_none nb cellId hmiss
  constructor
  · unfold createCycleDiagnostics
    cases hcyc : g.cycles.isEmpty
    · simp only [Bool.false_eq_true, if_false]
      exact foldl_filter_id (cycleDiagStep nb g) cellId
        (cycleDiagStep_miss nb g cellId huri) (cellsInCycles g) []
    · simp
  · intro uri d hd dd hdata hcid
    unfold createMultipleDefinitionDiagnostics at hd
    rw [diagsAt_foldl] at hd
    have hnil : diagsAt ([] : DiagMap) uri = [] := rfl
    rw [hnil, List.nil_append] at hd
    obtain ⟨p, hpf, hpd⟩ := List.mem_map.mp hd
    have hpmem : p ∈ multiDefEntries nb gm := (List.mem_filter.mp hpf).1
    unfold multiDefEntries at hpmem
    obtain ⟨v, _, hp2⟩ := List.mem_flatMap.mp hpmem
    obtain ⟨c, _, hpfor⟩ := List.mem_flatMap.mp hp2
    obtain ⟨⟨u0, hu0, _⟩, hdata'⟩ := multiDefEntriesFor_shape nb gm v _ c p hpfor
    rw [hpd, hdata] at hdata'
    obtain hdd := Option.some.inj hdata'
    rw [hdd] at hcid
    have hceq : c = cellId := hcid
    rw [hceq, huri] at hu0
    exact Option.noConfusion hu0

/-- Witness for C10 at the concrete mismatched notebook `notebookW10`
whose registered cell id `abc` equals no cell-document URI. -/
theorem c10_witness :
    (∀ cell ∈ notebookW10.cells, cell.document ≠ "abc") ∧
      (createCycleDiagnostics notebookW10 managerW10.graph =
          (if managerW10.graph.cycles.isEmpty then []
           else ((cellsInCycles managerW10.graph).filter
               (fun y => y ≠ "abc")).foldl
             (cycleDiagStep notebookW10 managerW10.graph) []) ∧
        (∀ uri,
          ∀ d ∈ diagsAt
              (createMultipleDefinitionDiagnostics notebookW10 managerW10) uri,
          ∀ dd, d.data = some dd → dd.cellId ≠ "abc")) :=
  ⟨by decide,
    c10_mismatched_cell_id_skipped notebookW10 managerW10.graph managerW10
      "abc" (by decide)⟩

end MarimoLsp

namespace MarimoLsp

theorem filterFilter {α : Type} (l : List α) (p q : α → Bool) :
    (l.filter p).filter q = l.filter (fun a => p a && q a) := by
  induction l with
  | nil => rfl
  | cons hd tl ih =>
      by_cases hp : p hd = true
      · by_cases hq : q hd = true
        · simp [List.filter_cons, hp, hq, ih]
        · simp only [Bool.not_eq_true] at hq
          simp [List.filter_cons, hp, hq, ih]
      · simp only [Bool.not_eq_true] at hp
        simp [List.filter_cons, hp, ih]

/-- The positions of a variable's store nodes, rendered as diagnostics,
coincide node-for-node with the claim-side diagnostic of each matching
`ast.Name` store node, provided each such node has a truthy
`end_col_offset`. -/
theorem varPos_map_spec (nb : NotebookDocument) (v : String) (c : CellId)
    (cs : List CellId) (ostr : String)
    (hostr : ostr =
      String.intercalate ", "
        ((cs.filter (· ≠ c)).map (fun c2 => getCellDisplayName c2 nb)))
    (l : List ASTNode)
    (hend : ∀ node ∈ l, isStoreNameFor v node = true → goodEnd node = true) :
    (l.filterMap (varPosOf v)).map (mkMultiDefDiagnostic v c cs ostr) =
      (l.filter (isStoreNameFor v)).map (specMultiDefDiagnostic nb v c cs) := by
  induction l with
  | nil => rfl
  | cons nd tl ih =>
      have hendtl : ∀ node ∈ tl, isStoreNameFor v node = true →
          goodEnd node = true :=
        fun node hn => hend node (List.mem_cons_of_mem nd hn)
      cases nd with
      | other =>
          rw [List.filterMap_cons]
          simp only [varPosOf]
          rw [List.filter_cons, if_neg (by simp [isStoreNameFor])]
          exact ih hendtl
      | nameNode id isS ln col endC =>
          by_cases hm : (isS && decide (id = v)) = true
          · have hmatch : isStoreNameFor v (.nameNode id isS ln col endC) =
                true := by
              simpa [isStoreNameFor] using hm
            have hgood := hend (.nameNode id isS ln col endC)
              (List.mem_cons_self _ _) hmatch
            obtain ⟨k, hk⟩ : ∃ k, endC = some (k + 1) := by
              cases endC with
              | none => simp [goodEnd] at hgood
              | some m =>
                  cases m with
                  | zero => simp [goodEnd] at hgood
                  | succ k => exact ⟨k, rfl⟩
            subst hk
            rw [List.filterMap_cons]
            simp only [varPosOf, if_pos hm]
            rw [List.filter_cons, if_pos hmatch, List.map_cons, List.map_cons]
            congr 1
            · simp [mkMultiDefDiagnostic, specMultiDefDiagnostic, pyOrNat,
                nodeLineno, nodeColOffset, nodeEndColOffset,
                specMultiDefMessage, hostr]
            · exact ih hendtl
          · have hmatch : isStoreNameFor v (.nameNode id isS ln col endC) =
                false := by
              simpa [isStoreNameFor] using hm
            rw [List.filterMap_cons]
            simp only [varPosOf, if_neg hm]
            rw [List.filter_cons, if_neg (by simp [hmatch])]
            exact ih hendtl

end MarimoLsp

namespace MarimoLsp

/-- C4: the multiple-definition diagnostics emitted for a defining cell
of a multiply-defined variable are exactly one diagnostic per `ast.Name`
store node of that variable in the cell's compiled module, each covering
the column interval `[col_offset, end_col_offset]` on the node's
0-based line, with a message listing the other defining cells by display
name (as `specMultiDefDiagnostic` states).  The emissions of the pair
(variable, cell) are identified inside the published per-URI list by the
diagnostic's structured data. -/
theorem c4_multiple_definition_range (nb : NotebookDocument)
    (gm : NotebookGraphManager) (v : String) (cs : List CellId) (c : CellId)
    (compiled : CompiledCell) (u : String)
    (hnodup : (gm.graph.definitions.map Prod.fst).Nodup)
    (hv : (v, cs) ∈ gm.graph.definitions)
    (hmult : cs.length > 1)
    (hc : c ∈ cs) (hcs : cs.Nodup)
    (hcomp : gm.getCompiledCell c = some compiled)
    (huri : findCellUri nb c = some u)
    (hend : ∀ node ∈ compiled.mod, isStoreNameFor v node = true →
      goodEnd node = true) :
    (diagsAt (createMultipleDefinitionDiagnostics nb gm) u).filter
        (fun d => d.data =
          some { varName := v, cellId := c, allCells := cs }) =
      (compiled.mod.filter (isStoreNameFor v)).map
        (specMultiDefDiagnostic nb v c cs) := by
  have hvmd : v ∈ gm.graph.multiplyDefined := by
    unfold DirectedGraph.multiplyDefined
    exact List.mem_map.mpr
      ⟨(v, cs), List.mem_filter.mpr ⟨hv, by simp [hmult]⟩, rfl⟩
  have hmdnodup : gm.graph.multiplyDefined.Nodup := by
    unfold DirectedGraph.multiplyDefined
    have hsub : (gm.graph.definitions.filter
        (fun p => p.2.length > 1)).Sublist gm.graph.definitions :=
      List.filter_sublist _
    exact List.Nodup.sublist (hsub.map Prod.fst) hnodup
  have hdcs : definingCellsOf gm v = cs := by
    unfold definingCellsOf
    rw [dictGet_of_mem_nodup _ _ _ hv hnodup]
    rfl
  have houter : ∀ v' ∈ gm.graph.multiplyDefined, v' ≠ v →
      ((definingCellsOf gm v').flatMap fun cellId =>
          multiDefEntriesFor nb gm v' (definingCellsOf gm v') cellId).filter
        (fun p => decide (p.1 = u) && decide (p.2.data =
          some { varName := v, cellId := c, allCells := cs })) = [] := by
    intro v' _ hne
    apply filterN
    intro p hp
    obtain ⟨c', _, hpfor⟩ := List.mem_flatMap.mp hp
    obtain ⟨_, hdata⟩ := multiDefEntriesFor_shape nb gm v' _ c' p hpfor
    simp [hdata, hne]
  have hinner : ∀ c' ∈ cs, c' ≠ c →
      (multiDefEntriesFor nb gm v cs c').filter
        (fun p => decide (p.1 = u) && decide (p.2.data =
          some { varName := v, cellId := c, allCells := cs })) = [] := by
    intro c' _ hne
    apply filterN
    intro p hp
    obtain ⟨_, hdata⟩ := multiDefEntriesFor_shape nb gm v cs c' p hp
    simp [hdata, hne]
  have hall : ∀ p ∈ multiDefEntriesFor nb gm v cs c,
      (fun p => decide (p.1 = u) && decide (p.2.data =
        some { varName := v, cellId := c, allCells := cs })) p = true := by
    intro p hp
    obtain ⟨⟨u0, hu0, hp1⟩, hdata⟩ := multiDefEntriesFor_shape nb gm v cs c p hp
    rw [huri] at hu0
    obtain rfl := Option.some.inj hu0
    simp [hp1, hdata]
  have hA : diagsAt (createMultipleDefinitionDiagnostics nb gm) u =
      ((multiDefEntries nb gm).filter (fun p => p.1 = u)).map (·.2) := by
    unfold createMultipleDefinitionDiagnostics
    rw [diagsAt_foldl]
    have hnil : diagsAt ([] : DiagMap) u = [] := rfl
    rw [hnil, List.nil_append]
  have hB : (diagsAt (createMultipleDefinitionDiagnostics nb gm) u).filter
      (fun d => d.data = some { varName := v, cellId := c, allCells := cs }) =
      ((multiDefEntries nb gm).filter
        (fun p => decide (p.1 = u) && decide (p.2.data =
          some { varName := v, cellId := c, allCells := cs }))).map (·.2) := by
    rw [hA, filterOfMap, filterFilter]
  have hC : (multiDefEntries nb gm).filter
      (fun p => decide (p.1 = u) && decide (p.2.data =
        some { varName := v, cellId := c, allCells := cs })) =
      (multiDefEntriesFor nb gm v cs c).filter
        (fun p => decide (p.1 = u) && decide (p.2.data =
          some { varName := v, cellId := c, allCells := cs })) := by
    unfold multiDefEntries
    rw [filterFlatMap]
    rw [flatMapSingle _ v _ hvmd hmdnodup houter]
    rw [hdcs, filterFlatMap]
    exact flatMapSingle _ c _ hc hcs hinner
  have hE : (multiDefEntriesFor nb gm v cs c).filter
      (fun p => decide (p.1 = u) && decide (p.2.data =
        some { varName := v, cellId := c, allCells := cs })) =
      multiDefEntriesFor nb gm v cs c := filterAll _ _ hall
  have hforE : multiDefEntriesFor nb gm v cs c =
      (findVariableDefinitions compiled v).map
        (fun pos =>
          (u, mkMultiDefDiagnostic v c cs
            (String.intercalate ", "
              ((cs.filter (· ≠ c)).map
                (fun c2 => getCellDisplayName c2 nb))) pos)) := by
    simp only [multiDefEntriesFor, hcomp, huri]
  rw [hB, hC, hE, hforE, List.map_map]
  exact varPos_map_spec nb v c cs
    (String.intercalate ", "
      ((cs.filter (· ≠ c)).map (fun c2 => getCellDisplayName c2 nb)))
    rfl compiled.mod hend

end MarimoLsp

namespace MarimoLsp

/-- Witness for C4 at the concrete notebook `notebookW` where both
cells define `x` and the first cell's module stores `x` at line 1,
columns 0-1. -/
theorem c4_witness :
    (managerW4.graph.definitions.map Prod.fst).Nodup ∧
      ("x", ["u1", "u2"]) ∈ managerW4.graph.definitions ∧
      (["u1", "u2"] : List CellId).length > 1 ∧
      ("u1" : CellId) ∈ (["u1", "u2"] : List CellId) ∧
      (["u1", "u2"] : List CellId).Nodup ∧
      managerW4.getCompiledCell "u1" = some compiledX ∧
      findCellUri notebookW "u1" = some "u1" ∧
      (∀ node ∈ compiledX.mod, isStoreNameFor "x" node = true →
        goodEnd node = true) ∧
      (diagsAt (createMultipleDefinitionDiagnostics notebookW managerW4)
            "u1").filter
          (fun d => d.data =
            some { varName := "x", cellId := "u1",
                   allCells := ["u1", "u2"] }) =
        (compiledX.mod.filter (isStoreNameFor "x")).map
          (specMultiDefDiagnostic notebookW "x" "u1" ["u1", "u2"]) :=
  ⟨by decide, by decide, by decide, by decide, by decide, by decide, by decide,
    by decide,
    c4_multiple_definition_range notebookW managerW4 "x" ["u1", "u2"] "u1"
      compiledX "u1" (by decide) (by decide) (by decide) (by decide)
      (by decide) (by decide) (by decide) (by decide)⟩

end MarimoLsp
